import Mathlib

/-!
Shallow embedding of `d4prom.py`, a one-shot Prometheus telemetry collector:
it fetches three JSON endpoints (`/status`, `/api/worldstate`,
`/api/liveevent`) with an instrumented HTTP helper (`get_endpoint`), writes
gauge values into a per-run registry, and pushes the registry once to a push
gateway.

Modelling conventions:
  * Python values decoded from JSON are the inductive `PyVal` (note that the
    JSON literal `null` decodes to Python `None`, which is also what a Python
    function returns when it falls off the end — both are `PyVal.none`).
  * The outcome of the underlying `requests.Session.get` call plus body
    decoding is an input (`HttpOutcome`): the transport either raised
    (connection error after the adapter's internal retries), or produced a
    response with a status code whose body either decodes to a `PyVal` or
    fails to decode.
  * Raisable Python expressions are modelled in `Except PyErr`; an uncaught
    exception aborts `main` exactly as in CPython.
  * Wall-clock durations are not modelled; for the histogram we record the
    fact of one observation (with its labels), which is what the claims are
    about.
  * `prometheus_client` coerces label values with `str()`; the world-state
    gauge children are keyed here by the raw label value, which is faithful
    whenever the upstream identifiers are strings (as in every payload the
    program consumes).
  * String manipulation is implemented over `List Char` by structural
    recursion so that every definition evaluates inside the kernel.
-/

namespace D4Prom

mutual
/-- Decoded JSON payloads / runtime Python values (`None`, `bool`, numbers,
`str`, `list`, `dict`).  Numbers are modelled as rationals. -/
inductive PyVal where
  | none
  | bool (b : Bool)
  | num (q : Rat)
  | str (s : String)
  | list (xs : PyList)
  | dict (kvs : PyDict)
deriving DecidableEq

/-- A Python list of `PyVal`s (spelled out so equality is derivable). -/
inductive PyList where
  | nil
  | cons (v : PyVal) (rest : PyList)
deriving DecidableEq

/-- A Python dict with string keys (spelled out so equality is derivable). -/
inductive PyDict where
  | nil
  | cons (k : String) (v : PyVal) (rest : PyDict)
deriving DecidableEq
end

deriving instance DecidableEq for Except

/-- Exceptions the embedded fragment can raise. -/
inductive PyErr where
  | attributeError
  | typeError
  | valueError
  | keyError
  | connectionError
  | jsonDecodeError
deriving DecidableEq

def PyList.toList : PyList → List PyVal
  | .nil => []
  | .cons v rest => v :: rest.toList

def PyList.ofList : List PyVal → PyList
  | [] => .nil
  | v :: rest => .cons v (PyList.ofList rest)

/-- First binding for a key (a `dict` decoded from JSON has unique keys). -/
def PyDict.lookup : PyDict → String → Option PyVal
  | .nil, _ => Option.none
  | .cons k v rest, key => if k = key then some v else rest.lookup key

def PyDict.keys : PyDict → List String
  | .nil => []
  | .cons k _ rest => k :: rest.keys

def PyDict.ofList : List (String × PyVal) → PyDict
  | [] => .nil
  | (k, v) :: rest => .cons k v (PyDict.ofList rest)

/-- Python truthiness (`bool(v)`), used by `data or []`. -/
def pyTruthy : PyVal → Bool
  | .none => false
  | .bool b => b
  | .num q => q != 0
  | .str s => s != ""
  | .list .nil => false
  | .list _ => true
  | .dict .nil => false
  | .dict _ => true

/-- If `sep` is a prefix of `cs`, the remainder after it. -/
def stripPre : List Char → List Char → Option (List Char)
  | [], rest => some rest
  | _ :: _, [] => Option.none
  | s :: ss, c :: cs => if s = c then stripPre ss cs else Option.none

/-- Split at the first occurrence of `sep`: `(before, after)`. -/
def breakOnSub (sep : List Char) : List Char → Option (List Char × List Char)
  | [] =>
    match stripPre sep [] with
    | some r => some ([], r)
    | Option.none => Option.none
  | c :: cs =>
    match stripPre sep (c :: cs) with
    | some rest => some ([], rest)
    | Option.none =>
      match breakOnSub sep cs with
      | some (pre, post) => some (c :: pre, post)
      | Option.none => Option.none

/-- Whether `sep` occurs as a contiguous subsequence of `cs`. -/
def hasSub (sep : List Char) (cs : List Char) : Bool :=
  (breakOnSub sep cs).isSome

/-- Split on a single character (list of the separated chunks). -/
def splitChar (c : Char) : List Char → List (List Char)
  | [] => [[]]
  | x :: xs =>
    let r := splitChar c xs
    if x = c then [] :: r
    else
      match r with
      | [] => [[x]]
      | h :: t => (x :: h) :: t

/-- Python membership `key in container` for a string key: key lookup on
dicts, element equality on lists (a string equals only an equal string),
substring test on strings; `TypeError` on `None`, booleans and numbers. -/
def pyContains (container : PyVal) (key : String) : Except PyErr Bool :=
  match container with
  | .dict kvs => .ok (kvs.lookup key).isSome
  | .list xs => .ok (go xs.toList)
  | .str s => .ok (key = "" || hasSub key.toList s.toList)
  | _ => .error .typeError
where
  go : List PyVal → Bool
    | [] => false
    | .str s :: rest => s = key || go rest
    | _ :: rest => go rest

/-- Python subscript `container[key]` for a string key: `KeyError` when a
dict lacks the key, `TypeError` otherwise (list and str indices must be
integers; other values are not subscriptable). -/
def pySubscript (container : PyVal) (key : String) : Except PyErr PyVal :=
  match container with
  | .dict kvs =>
    match kvs.lookup key with
    | some v => .ok v
    | Option.none => .error .keyError
  | _ => .error .typeError

/-- Python `container.get(key, dflt)`: only dicts have `.get`; anything else
(including `None`) raises `AttributeError`. -/
def pyDictGet (container : PyVal) (key : String) (dflt : PyVal) : Except PyErr PyVal :=
  match container with
  | .dict kvs => .ok ((kvs.lookup key).getD dflt)
  | _ => .error .attributeError

def digitsToNat (cs : List Char) : Option Nat :=
  if cs.all Char.isDigit then
    some (cs.foldl (fun acc c => acc * 10 + (c.toNat - 48)) 0)
  else Option.none

def trimChars (cs : List Char) : List Char :=
  ((cs.dropWhile Char.isWhitespace).reverse.dropWhile Char.isWhitespace).reverse

/-- Models Python `float(s)` on plain decimal strings (optional sign, digits,
optional fractional part, surrounding whitespace); returns `none` where
Python raises `ValueError`. -/
def pyFloatStr (s : String) : Option Rat :=
  let cs := trimChars s.toList
  let (neg, body) :=
    match cs with
    | '-' :: rest => (true, rest)
    | '+' :: rest => (false, rest)
    | rest => (false, rest)
  let mag : Option Rat :=
    match splitChar '.' body with
    | [a] =>
      if a.isEmpty then Option.none
      else (digitsToNat a).map fun n => (n : Rat)
    | [a, b] =>
      if a.isEmpty && b.isEmpty then Option.none
      else
        match digitsToNat a, digitsToNat b with
        | some na, some nb => some ((na : Rat) + (nb : Rat) / ((10 : Rat) ^ b.length))
        | _, _ => Option.none
    | _ => Option.none
  mag.map fun q => if neg then -q else q

/-- Python `float(v)` as invoked by `Gauge.set`: numbers pass through, bools
become 0/1, numeric strings parse, everything else raises. -/
def pyFloat : PyVal → Except PyErr Rat
  | .num q => .ok q
  | .bool b => .ok (if b then 1 else 0)
  | .str s =>
    match pyFloatStr s with
    | some q => .ok q
    | Option.none => .error .valueError
  | _ => .error .typeError

/-- Python iteration `for x in v`: lists yield elements, dicts yield their
keys, strings yield their characters; `None`, bools and numbers raise
`TypeError`. -/
def pyIter : PyVal → Except PyErr (List PyVal)
  | .list xs => .ok xs.toList
  | .dict kvs => .ok (kvs.keys.map PyVal.str)
  | .str s => .ok (s.toList.map fun c => PyVal.str (String.singleton c))
  | _ => .error .typeError

/-- Result of `urllib.parse.urlparse` as used by `get_endpoint`. -/
structure UrlParts where
  scheme : String
  host : String
  port : Option Nat
  path : String
deriving DecidableEq, Inhabited

/-- Models `urllib.parse.urlparse` on the absolute `scheme://host/path` URLs
this program uses (hostname lowercased; none of them carries a port). -/
def urlparse (url : String) : UrlParts :=
  match breakOnSub [':', '/', '/'] url.toList with
  | some (sch, rest) =>
    let netloc := rest.takeWhile fun c => c ≠ '/'
    let path := rest.drop netloc.length
    match splitChar ':' netloc with
    | [h, p] =>
      { scheme := String.mk sch, host := String.mk (h.map Char.toLower),
        port := if p.isEmpty then Option.none else digitsToNat p,
        path := String.mk path }
    | _ =>
      { scheme := String.mk sch, host := String.mk (netloc.map Char.toLower),
        port := Option.none, path := String.mk path }
  | Option.none => { scheme := "", host := "", port := Option.none, path := url }

example : urlparse "https://d4armory.io/api/liveevent" =
    { scheme := "https", host := "d4armory.io", port := Option.none, path := "/api/liveevent" } := by
  decide

def PROM_PUSH_GATEWAY_ENDPOINT : String := "localhost:9091"

def LIVE_EVENT_ENDPOINT : String := "https://d4armory.io/api/liveevent"

def WORLD_STATE_ENDPOINT : String := "https://d4armory.io/api/worldstate"

def STATUS_ENDPOINT : String := "https://d4armory.io/status"

/-- Label values attached to the request counter and latency histogram. -/
structure Labels where
  status : Int
  method : String
  scheme : String
  host : String
  port : Option Nat
  path : String
deriving DecidableEq, Inhabited

/-- One update of the request counter or latency histogram. -/
inductive MetricEvent where
  | histObserve (l : Labels)
  | counterInc (l : Labels) (amount : Nat)
deriving DecidableEq

/-- Whether `resp.json()` decodes the body or raises. -/
inductive BodyDecode where
  | json (v : PyVal)
  | notJson
deriving DecidableEq

/-- Outcome of the underlying `s.get(url)` call: either it raised (connection
failure after the adapter's internal retries are exhausted), or it produced a
response with a status code and a body. -/
inductive HttpOutcome where
  | raised
  | response (code : Int) (body : BodyDecode)
deriving DecidableEq

/-- Embeds `get_endpoint(s, url, req_counter, req_histogram)`.  The `try` body
(`resp = s.get(url); status = resp.status_code; return resp.json()`) either
returns the decoded body together with the status code it had stored, or
raises; `except Exception` then sets `status = -1` and falls through, so the
function returns `None`.  The `finally` block always records one histogram
observation and one counter increment carrying the same label values. -/
def get_endpoint (url : String) (h : HttpOutcome) : Except PyErr PyVal × List MetricEvent :=
  let p := urlparse url
  let tryResult : Except PyErr (Int × PyVal) :=
    match h with
    | .raised => .error .connectionError
    | .response _ .notJson => .error .jsonDecodeError
    | .response code (.json v) => .ok (code, v)
  let (result, status) : Except PyErr PyVal × Int :=
    match tryResult with
    | .ok (code, v) => (.ok v, code)
    | .error _ => (.ok PyVal.none, -1)
  let labels : Labels :=
    { status := status, method := "GET", scheme := p.scheme,
      host := p.host, port := p.port, path := p.path }
  (result, [.histObserve labels, .counterInc labels 1])

/-- Overwrite-update of a labelled gauge family: the child for key `k` is set
to `v` (in place when present, appended otherwise), matching
`Gauge.labels(...).set`. -/
def setG {κ : Type} [DecidableEq κ] : List (κ × Rat) → κ → Rat → List (κ × Rat)
  | [], k, v => [(k, v)]
  | (k', v') :: rest, k, v =>
    if k' = k then (k', v) :: rest else (k', v') :: setG rest k v

/-- Current value of a gauge child. -/
def lookupG {κ : Type} [DecidableEq κ] : List (κ × Rat) → κ → Option Rat
  | [], _ => Option.none
  | (k', v) :: rest, k => if k' = k then some v else lookupG rest k

/-- Additive update of a counter-like family (counter increments and
histogram observation counts). -/
def bump : List (Labels × Nat) → Labels → Nat → List (Labels × Nat)
  | [], l, n => [(l, n)]
  | (l', c) :: rest, l, n =>
    if l' = l then (l', c + n) :: rest else (l', c) :: bump rest l n

/-- Diagnostic log lines the collectors emit. -/
inductive LogEvent where
  | warnMissingField (field : String) (payload : PyVal)
  | warnInvalidWorldState (entry : PyVal)
  | excFailedLiveEvent
  | excFailedWorldState
deriving DecidableEq

/-- The per-run metric registry: request counter, latency histogram
(observation counts), the labelled service-status and world-state gauge
families, and the three unlabelled live-event gauges (`none` = never set). -/
structure Registry where
  reqCounter : List (Labels × Nat)
  reqHistCount : List (Labels × Nat)
  d4armoryStatus : List (String × Rat)
  worldState : List (PyVal × Rat)
  liveEventSno : Option Rat
  liveEventStartTime : Option Rat
  liveEventEndTime : Option Rat
deriving DecidableEq

def initRegistry : Registry :=
  { reqCounter := [], reqHistCount := [], d4armoryStatus := [],
    worldState := [], liveEventSno := Option.none,
    liveEventStartTime := Option.none, liveEventEndTime := Option.none }

/-- Mutable state of one run: the registry plus the log. -/
structure RunState where
  reg : Registry
  log : List LogEvent
deriving DecidableEq

def initState : RunState := { reg := initRegistry, log := [] }

def applyEvent (r : Registry) : MetricEvent → Registry
  | .histObserve l => { r with reqHistCount := bump r.reqHistCount l 1 }
  | .counterInc l n => { r with reqCounter := bump r.reqCounter l n }

def recordEvents (st : RunState) (evs : List MetricEvent) : RunState :=
  { st with reg := evs.foldl applyEvent st.reg }

def addLog (st : RunState) (e : LogEvent) : RunState :=
  { st with log := st.log ++ [e] }

/-- The assignment of `data` around the `try`/`except` in
`d4armory_health_check`: the `except Exception` branch substitutes `{}`. -/
def health_check_data (fetched : Except PyErr PyVal) : PyVal :=
  match fetched with
  | .ok v => v
  | .error _ => PyVal.dict .nil

/-- The `for service in [...]` loop of `d4armory_health_check`: per service,
`value = data.get(service, False) is True` then
`g.labels(service=service).set(1 if value else 0)`.  The `is True` identity
test holds exactly for the `True` singleton.  A raised exception (e.g.
`AttributeError` when `data` is `None`) escapes with the state so far. -/
def hc_loop (data : PyVal) : List String → RunState → RunState × Option PyErr
  | [], st => (st, Option.none)
  | svc :: rest, st =>
    match pyDictGet data svc (PyVal.bool false) with
    | .error e => (st, some e)
    | .ok v =>
      let gauges := setG st.reg.d4armoryStatus svc (if v = PyVal.bool true then 1 else 0)
      hc_loop data rest { st with reg := { st.reg with d4armoryStatus := gauges } }

/-- Embeds `d4armory_health_check`: fetch the status payload, then set one 0/1 gauge
child per service name.  Only the fetch is inside the `try`; the loop runs
after it, so an exception raised there propagates to the caller. -/
def d4armory_health_check (h : HttpOutcome) (st : RunState) : RunState × Option PyErr :=
  let (fetched, evs) := get_endpoint STATUS_ENDPOINT h
  let st := recordEvents st evs
  let data := health_check_data fetched
  hc_loop data ["character_service", "event_service"] st

/-- One `if key in data: gauge.set(data[key])` / `else: logging.warning(...)`
block of `live_event`; `setg` performs the gauge write and `Gauge.set`
coerces its argument with `float`. -/
def le_field (data : PyVal) (key : String) (setg : RunState → Rat → RunState)
    (st : RunState) : RunState × Option PyErr :=
  match pyContains data key with
  | .error e => (st, some e)
  | .ok false => (addLog st (.warnMissingField key data), Option.none)
  | .ok true =>
    match pySubscript data key with
    | .error e => (st, some e)
    | .ok v =>
      match pyFloat v with
      | .error e => (st, some e)
      | .ok q => (setg st q, Option.none)

def setSnoGauge (st : RunState) (q : Rat) : RunState :=
  { st with reg := { st.reg with liveEventSno := some q } }

def setStartGauge (st : RunState) (q : Rat) : RunState :=
  { st with reg := { st.reg with liveEventStartTime := some q } }

def setEndGauge (st : RunState) (q : Rat) : RunState :=
  { st with reg := { st.reg with liveEventEndTime := some q } }

/-- Embeds `live_event`: fetch, then three independent key checks; any exception in
the body is caught by the collector-level `except`, which keeps the state
reached so far and logs at error level. -/
def live_event (h : HttpOutcome) (st : RunState) : RunState :=
  let (fetched, evs) := get_endpoint LIVE_EVENT_ENDPOINT h
  let st := recordEvents st evs
  match fetched with
  | .error _ => addLog st .excFailedLiveEvent
  | .ok data =>
    let r1 := le_field data "liveEventSno" setSnoGauge st
    match r1.2 with
    | some _ => addLog r1.1 .excFailedLiveEvent
    | Option.none =>
      let r2 := le_field data "liveEventStartTime" setStartGauge r1.1
      match r2.2 with
      | some _ => addLog r2.1 .excFailedLiveEvent
      | Option.none =>
        let r3 := le_field data "liveEventEndTime" setEndGauge r2.1
        match r3.2 with
        | some _ => addLog r3.1 .excFailedLiveEvent
        | Option.none => r3.1

/-- The guard `"worldState" in info and "nValue" in info`, with Python's
short-circuit evaluation. -/
def ws_check (info : PyVal) : Except PyErr Bool :=
  match pyContains info "worldState" with
  | .error e => .error e
  | .ok false => .ok false
  | .ok true => pyContains info "nValue"

/-- Embeds `g.labels(world_state=info["worldState"]).set(info["nValue"])`. -/
def ws_set (info : PyVal) (st : RunState) : Except PyErr RunState :=
  match pySubscript info "worldState" with
  | .error e => .error e
  | .ok kv =>
    match pySubscript info "nValue" with
    | .error e => .error e
    | .ok nv =>
      match pyFloat nv with
      | .error e => .error e
      | .ok q =>
        .ok { st with reg := { st.reg with worldState := setG st.reg.worldState kv q } }

/-- The `for info in ...` loop of `world_state`; a raised exception escapes
with the state reached so far. -/
def ws_loop : List PyVal → RunState → RunState × Option PyErr
  | [], st => (st, Option.none)
  | info :: rest, st =>
    match ws_check info with
    | .error e => (st, some e)
    | .ok false => ws_loop rest (addLog st (.warnInvalidWorldState info))
    | .ok true =>
      match ws_set info st with
      | .error e => (st, some e)
      | .ok st' => ws_loop rest st'

/-- Embeds `(data or [])` followed by iteration: a falsy payload iterates as the
empty list, a truthy non-iterable raises. -/
def ws_iterable (data : PyVal) : Except PyErr (List PyVal) :=
  if pyTruthy data then pyIter data else .ok []

/-- Embeds `world_state`: fetch, iterate over the entries; any exception in the body
is caught by the collector-level `except` and logged at error level. -/
def world_state (h : HttpOutcome) (st : RunState) : RunState :=
  let (fetched, evs) := get_endpoint WORLD_STATE_ENDPOINT h
  let st := recordEvents st evs
  match fetched with
  | .error _ => addLog st .excFailedWorldState
  | .ok data =>
    match ws_iterable data with
    | .error _ => addLog st .excFailedWorldState
    | .ok infos =>
      let r := ws_loop infos st
      match r.2 with
      | some _ => addLog r.1 .excFailedWorldState
      | Option.none => r.1

/-- Upstream behaviour of one run: the outcome of each endpoint fetch and
whether `push_to_gateway` succeeds. -/
structure Upstream where
  status : HttpOutcome
  worldState : HttpOutcome
  liveEvent : HttpOutcome
  pushOk : Bool
deriving DecidableEq

/-- Observable outcome of one process run. -/
structure RunResult where
  final : RunState
  pushAttempted : Bool
  exitZero : Bool
deriving DecidableEq

/-- The collector sequence of `main` (health check, then world state, then
live event); an exception escaping a collector aborts the sequence, since
`main` has no handler around the calls. -/
def runCollectors (u : Upstream) (st : RunState) : RunState × Option PyErr :=
  match d4armory_health_check u.status st with
  | (st, some e) => (st, some e)
  | (st, Option.none) =>
    let st := world_state u.worldState st
    let st := live_event u.liveEvent st
    (st, Option.none)

/-- Embeds `main`: fresh registry, the three collectors in order, then a single
`push_to_gateway` call.  An uncaught exception terminates the interpreter
before the push with a non-zero exit; otherwise the exit status is zero
exactly when the push succeeds (`push_to_gateway` raising is likewise
uncaught). -/
def main (u : Upstream) : RunResult :=
  match runCollectors u initState with
  | (st, some _) => { final := st, pushAttempted := false, exitZero := false }
  | (st, Option.none) => { final := st, pushAttempted := true, exitZero := u.pushOk }

/-- The five gauge families of the registry (the data-carrying metrics; the
request counter and histogram are cumulative by design and excluded). -/
def gaugesOf (st : RunState) :
    List (String × Rat) × List (PyVal × Rat) × Option Rat × Option Rat × Option Rat :=
  (st.reg.d4armoryStatus, st.reg.worldState, st.reg.liveEventSno,
   st.reg.liveEventStartTime, st.reg.liveEventEndTime)

/-- The labels of one metric event. -/
def eventLabels : MetricEvent → Labels
  | .histObserve l => l
  | .counterInc l _ => l

/-- The label set a `get_endpoint` call attaches to its counter increment and
histogram observation. -/
def callLabels (url : String) (h : HttpOutcome) : Labels :=
  match (get_endpoint url h).2 with
  | e :: _ => eventLabels e
  | [] => default

theorem PyList.toList_ofList (xs : List PyVal) : (PyList.ofList xs).toList = xs := by
  induction xs with
  | nil => rfl
  | cons x rest ih => simp [PyList.ofList, PyList.toList, ih]

section MapLemmas

variable {κ : Type} [DecidableEq κ]

theorem lookupG_setG_self (m : List (κ × Rat)) (k : κ) (v : Rat) :
    lookupG (setG m k v) k = some v := by
  induction m with
  | nil => simp [setG, lookupG]
  | cons p rest ih =>
    obtain ⟨k', v'⟩ := p
    by_cases h : k' = k
    · simp [setG, lookupG, h]
    · simp [setG, lookupG, h, ih]

theorem lookupG_setG_ne (m : List (κ × Rat)) (k k' : κ) (v : Rat) (h : k ≠ k') :
    lookupG (setG m k v) k' = lookupG m k' := by
  induction m with
  | nil => simp [setG, lookupG, h]
  | cons p rest ih =>
    obtain ⟨k1, v1⟩ := p
    by_cases h1 : k1 = k
    · subst h1
      simp [setG, lookupG, h]
    · simp [setG, lookupG, h1, ih]

theorem setG_self (m : List (κ × Rat)) (k : κ) (v : Rat) (h : lookupG m k = some v) :
    setG m k v = m := by
  induction m with
  | nil => simp [lookupG] at h
  | cons p rest ih =>
    obtain ⟨k1, v1⟩ := p
    by_cases h1 : k1 = k
    · simp [lookupG, h1] at h
      simp [setG, h1, h]
    · simp [lookupG, h1] at h
      simp [setG, h1, ih h]

theorem setG_absorb (m : List (κ × Rat)) (k : κ) (v w : Rat) :
    setG (setG m k v) k w = setG m k w := by
  induction m with
  | nil => simp [setG]
  | cons p rest ih =>
    obtain ⟨k1, v1⟩ := p
    by_cases h1 : k1 = k
    · simp [setG, h1]
    · simp [setG, h1, ih]

/-- The keys of a gauge family. -/
def keysG (m : List (κ × Rat)) : List κ := m.map Prod.fst

theorem mem_keysG_setG (m : List (κ × Rat)) (k a : κ) (v : Rat) (h : a ∈ keysG m) :
    a ∈ keysG (setG m k v) := by
  induction m with
  | nil => simp [keysG] at h
  | cons p rest ih =>
    obtain ⟨k1, v1⟩ := p
    by_cases h1 : k1 = k
    · simpa [setG, keysG, h1] using h
    · simp [keysG] at h
      rcases h with h | h
      · simp [setG, keysG, h1, h]
      · simp [setG, keysG, h1]
        exact Or.inr (by simpa [keysG] using ih (by simpa [keysG] using h))

theorem self_mem_keysG_setG (m : List (κ × Rat)) (k : κ) (v : Rat) :
    k ∈ keysG (setG m k v) := by
  induction m with
  | nil => simp [setG, keysG]
  | cons p rest ih =>
    obtain ⟨k1, v1⟩ := p
    by_cases h1 : k1 = k
    · simp [setG, keysG, h1]
    · simp [setG, keysG, h1]
      exact Or.inr (by simpa [keysG] using ih)

theorem setG_comm_of_mem (m : List (κ × Rat)) (k k1 : κ) (v v1 : Rat)
    (hne : k ≠ k1) (hk : k ∈ keysG m) :
    setG (setG m k v) k1 v1 = setG (setG m k1 v1) k v := by
  induction m with
  | nil => simp [keysG] at hk
  | cons p rest ih =>
    obtain ⟨a, b⟩ := p
    by_cases ha : a = k
    · subst ha
      simp [setG, hne, Ne.symm hne]
    · by_cases ha1 : a = k1
      · subst ha1
        simp [setG, ha, Ne.symm hne]
      · simp [keysG, ha] at hk
        rcases hk with hk | hk
        · exact absurd hk.symm ha
        · simp [setG, ha, ha1, ih (by simpa [keysG] using hk)]

end MapLemmas

/-- Apply a sequence of gauge writes left to right. -/
def wsApply {κ : Type} [DecidableEq κ] : List (κ × Rat) → List (κ × Rat) → List (κ × Rat)
  | [], m => m
  | (k, v) :: ps, m => wsApply ps (setG m k v)

section WsApplyLemmas

variable {κ : Type} [DecidableEq κ]

theorem mem_keysG_wsApply (ps : List (κ × Rat)) (m : List (κ × Rat)) (a : κ)
    (h : a ∈ keysG m) : a ∈ keysG (wsApply ps m) := by
  induction ps generalizing m with
  | nil => simpa [wsApply] using h
  | cons p rest ih =>
    obtain ⟨k, v⟩ := p
    exact ih (setG m k v) (mem_keysG_setG m k a v h)

theorem lookupG_wsApply_not_written (ps : List (κ × Rat)) (m : List (κ × Rat)) (k : κ)
    (h : k ∉ ps.map Prod.fst) : lookupG (wsApply ps m) k = lookupG m k := by
  induction ps generalizing m with
  | nil => simp [wsApply]
  | cons p rest ih =>
    obtain ⟨k1, v1⟩ := p
    rw [List.map_cons] at h
    simp only [List.mem_cons, not_or] at h
    rw [wsApply, ih (setG m k1 v1) h.2, lookupG_setG_ne m k1 k v1 (fun he => h.1 he.symm)]

theorem wsApply_setG_overwritten (ps : List (κ × Rat)) (m : List (κ × Rat)) (k : κ) (v : Rat)
    (hmem : k ∈ keysG m) (hwr : k ∈ ps.map Prod.fst) :
    wsApply ps (setG m k v) = wsApply ps m := by
  induction ps generalizing m v with
  | nil => simp at hwr
  | cons p rest ih =>
    obtain ⟨k1, v1⟩ := p
    by_cases h1 : k1 = k
    · subst h1
      rw [wsApply, wsApply, setG_absorb]
    · rw [List.map_cons] at hwr
      rcases List.mem_cons.mp hwr with hwr | hwr
      · exact absurd hwr.symm h1
      · rw [wsApply, wsApply,
          setG_comm_of_mem m k k1 v v1 (fun he => h1 he.symm) hmem,
          ih (setG m k1 v1) v (mem_keysG_setG m k1 k v1 hmem) hwr]

theorem wsApply_idem (ps : List (κ × Rat)) (m : List (κ × Rat)) :
    wsApply ps (wsApply ps m) = wsApply ps m := by
  induction ps generalizing m with
  | nil => simp [wsApply]
  | cons p rest ih =>
    obtain ⟨k, v⟩ := p
    rw [wsApply, wsApply]
    by_cases hk : k ∈ rest.map Prod.fst
    · rw [wsApply_setG_overwritten rest (wsApply rest (setG m k v)) k v
        (mem_keysG_wsApply rest (setG m k v) k (self_mem_keysG_setG m k v)) hk]
      exact ih (setG m k v)
    · rw [setG_self (wsApply rest (setG m k v)) k v
        (by rw [lookupG_wsApply_not_written rest (setG m k v) k hk,
                lookupG_setG_self])]
      exact ih (setG m k v)

end WsApplyLemmas

section FrameLemmas

theorem foldl_applyEvent_d4armoryStatus (evs : List MetricEvent) (r : Registry) :
    (evs.foldl applyEvent r).d4armoryStatus = r.d4armoryStatus := by
  induction evs generalizing r with
  | nil => rfl
  | cons e rest ih => rw [List.foldl_cons, ih]; cases e <;> rfl

theorem foldl_applyEvent_worldState (evs : List MetricEvent) (r : Registry) :
    (evs.foldl applyEvent r).worldState = r.worldState := by
  induction evs generalizing r with
  | nil => rfl
  | cons e rest ih => rw [List.foldl_cons, ih]; cases e <;> rfl

theorem foldl_applyEvent_liveEventSno (evs : List MetricEvent) (r : Registry) :
    (evs.foldl applyEvent r).liveEventSno = r.liveEventSno := by
  induction evs generalizing r with
  | nil => rfl
  | cons e rest ih => rw [List.foldl_cons, ih]; cases e <;> rfl

theorem foldl_applyEvent_liveEventStartTime (evs : List MetricEvent) (r : Registry) :
    (evs.foldl applyEvent r).liveEventStartTime = r.liveEventStartTime := by
  induction evs generalizing r with
  | nil => rfl
  | cons e rest ih => rw [List.foldl_cons, ih]; cases e <;> rfl

theorem foldl_applyEvent_liveEventEndTime (evs : List MetricEvent) (r : Registry) :
    (evs.foldl applyEvent r).liveEventEndTime = r.liveEventEndTime := by
  induction evs generalizing r with
  | nil => rfl
  | cons e rest ih => rw [List.foldl_cons, ih]; cases e <;> rfl

theorem recordEvents_log (st : RunState) (evs : List MetricEvent) :
    (recordEvents st evs).log = st.log := rfl

end FrameLemmas

/-- C5: every call of the instrumented fetch — success, error response, or
raise — produces exactly one histogram observation followed by exactly one
counter increment by 1, both carrying the same labels, whose method is GET
and whose scheme, host, port and path come from parsing the endpoint URL. -/
theorem c5_one_inc_one_observation (url : String) (h : HttpOutcome) :
    ∃ L : Labels,
      (get_endpoint url h).2 = [.histObserve L, .counterInc L 1] ∧
      L.method = "GET" ∧ L.scheme = (urlparse url).scheme ∧
      L.host = (urlparse url).host ∧ L.port = (urlparse url).port ∧
      L.path = (urlparse url).path := by
  cases h with
  | raised => exact ⟨_, rfl, rfl, rfl, rfl, rfl, rfl⟩
  | response code body =>
    cases body with
    | json v => exact ⟨_, rfl, rfl, rfl, rfl, rfl, rfl⟩
    | notJson => exact ⟨_, rfl, rfl, rfl, rfl, rfl, rfl⟩

/-- C3 counterexample: a call whose HTTP response was obtained with status
code 200 but whose body fails JSON decoding is labelled with the −1
sentinel, not with the response's status code, contradicting the claim that
−1 is used only when the call raised before any response was obtained. -/
theorem c3_sentinel_despite_response :
    (callLabels STATUS_ENDPOINT (.response 200 .notJson)).status = -1 ∧
    ((-1 : Int) ≠ 200) :=
  ⟨rfl, by decide⟩

/-- C3 amended: the status label equals the response's status code exactly
when the body also decoded as JSON; the −1 sentinel is used whenever the
call raised at any point — before a response was obtained, or afterwards
while decoding the body. -/
theorem c3_status_label_amended (url : String) (code : Int) (v : PyVal) :
    (callLabels url (.response code (.json v))).status = code ∧
    (callLabels url (.response code .notJson)).status = -1 ∧
    (callLabels url .raised).status = -1 :=
  ⟨rfl, rfl, rfl⟩

/-- C8 counterexample: on a body that fails to decode as JSON the fetch
returns the normal value `None` (no exception surfaces to the collector),
and a 404 response with a JSON body is returned as a normal decoded value
as well — contradicting the claim that such failures surface as a fetch
error rather than a normal return. -/
theorem c8_failure_returns_none_not_error :
    (get_endpoint LIVE_EVENT_ENDPOINT (.response 200 .notJson)).1 = .ok PyVal.none ∧
    (get_endpoint STATUS_ENDPOINT (.response 404 (.json (PyVal.dict .nil)))).1
      = .ok (PyVal.dict .nil) :=
  ⟨rfl, rfl⟩

/-- C8 amended: the instrumented fetch returns the decoded JSON body
whenever the body decodes (regardless of the status code, 4xx included),
and returns the normal value `None` — not an exception — whenever the
transport raised or the body failed to decode; callers see failure only
through that `None` result. -/
theorem c8_fetch_result_amended (url : String) (h : HttpOutcome) :
    (get_endpoint url h).1 =
      Except.ok (match h with
        | .response _ (.json v) => v
        | _ => PyVal.none) := by
  cases h with
  | raised => rfl
  | response code body => cases body <;> rfl

/-- C10: for every URL and every outcome of the underlying HTTP call,
`get_endpoint` returns without raising (all failures are caught internally
and yield `None`), and consequently the `except` branch of
`d4armory_health_check` never fires: the `data` it selects is always the
value of the `try` branch, never the substituted `{}`. -/
theorem c10_get_endpoint_total (url : String) (h : HttpOutcome) :
    ∃ v : PyVal, (get_endpoint url h).1 = Except.ok v ∧
      health_check_data (get_endpoint url h).1 = v := by
  cases h with
  | raised => exact ⟨PyVal.none, rfl, rfl⟩
  | response code body =>
    cases body with
    | json v => exact ⟨v, rfl, rfl⟩
    | notJson => exact ⟨PyVal.none, rfl, rfl⟩

theorem hc_getD_true_iff (o : Option PyVal) :
    (o.getD (PyVal.bool false) = PyVal.bool true) ↔ o = some (PyVal.bool true) := by
  cases o <;> simp [Option.getD]

/-- C6: on a successfully decoded status payload that is an object, the
service-health collector terminates normally and sets, for each of the two
fixed service names, the status gauge to 1 exactly when the field is present
and equal to boolean `true`, and to 0 otherwise — a missing field and an
explicit `false` both yield 0 — and logs nothing. -/
theorem c6_health_gauge_values (code : Int) (kvs : PyDict) (st : RunState) :
    (d4armory_health_check (.response code (.json (.dict kvs))) st).2 = Option.none ∧
    lookupG (d4armory_health_check (.response code (.json (.dict kvs))) st).1.reg.d4armoryStatus
        "character_service"
      = some (if kvs.lookup "character_service" = some (PyVal.bool true) then 1 else 0) ∧
    lookupG (d4armory_health_check (.response code (.json (.dict kvs))) st).1.reg.d4armoryStatus
        "event_service"
      = some (if kvs.lookup "event_service" = some (PyVal.bool true) then 1 else 0) ∧
    (d4armory_health_check (.response code (.json (.dict kvs))) st).1.log = st.log := by
  refine ⟨rfl, ?_, ?_, rfl⟩
  · show lookupG
      (setG (setG st.reg.d4armoryStatus "character_service"
          (if (kvs.lookup "character_service").getD (PyVal.bool false) = PyVal.bool true then 1 else 0))
        "event_service"
          (if (kvs.lookup "event_service").getD (PyVal.bool false) = PyVal.bool true then 1 else 0))
      "character_service" = _
    rw [lookupG_setG_ne _ _ _ _ (by decide), lookupG_setG_self]
    simp [hc_getD_true_iff]
  · show lookupG
      (setG (setG st.reg.d4armoryStatus "character_service"
          (if (kvs.lookup "character_service").getD (PyVal.bool false) = PyVal.bool true then 1 else 0))
        "event_service"
          (if (kvs.lookup "event_service").getD (PyVal.bool false) = PyVal.bool true then 1 else 0))
      "event_service" = _
    rw [lookupG_setG_self]
    simp [hc_getD_true_iff]

/-- C7: on a live-event object payload that binds `liveEventSno` and
`liveEventEndTime` to gauge-settable values but lacks `liveEventStartTime`,
the collector sets the sno and end-time gauges to those values, leaves the
start-time gauge exactly as it was, and appends exactly one warning naming
the missing field. -/
theorem c7_missing_start_time (code : Int) (kvs : PyDict) (st : RunState)
    (v1 v3 : PyVal) (q1 q3 : Rat)
    (h1 : kvs.lookup "liveEventSno" = some v1) (hq1 : pyFloat v1 = .ok q1)
    (h2 : kvs.lookup "liveEventStartTime" = Option.none)
    (h3 : kvs.lookup "liveEventEndTime" = some v3) (hq3 : pyFloat v3 = .ok q3) :
    (live_event (.response code (.json (.dict kvs))) st).reg.liveEventSno = some q1 ∧
    (live_event (.response code (.json (.dict kvs))) st).reg.liveEventEndTime = some q3 ∧
    (live_event (.response code (.json (.dict kvs))) st).reg.liveEventStartTime
      = st.reg.liveEventStartTime ∧
    (live_event (.response code (.json (.dict kvs))) st).log
      = st.log ++ [.warnMissingField "liveEventStartTime" (PyVal.dict kvs)] := by
  have hle : live_event (.response code (.json (.dict kvs))) st
      = setEndGauge
          (addLog
            (setSnoGauge
              (recordEvents st (get_endpoint LIVE_EVENT_ENDPOINT
                (.response code (.json (.dict kvs)))).2) q1)
            (.warnMissingField "liveEventStartTime" (PyVal.dict kvs))) q3 := by
    simp only [live_event, get_endpoint, le_field, pyContains, pySubscript, h1, h2, h3,
      hq1, hq3, Option.isSome]
  rw [hle]
  refine ⟨rfl, rfl, ?_, rfl⟩
  show (recordEvents st _).reg.liveEventStartTime = st.reg.liveEventStartTime
  exact foldl_applyEvent_liveEventStartTime _ _

theorem c7_missing_start_time_witness :
    (PyDict.ofList [("liveEventSno", PyVal.num 7), ("liveEventEndTime", PyVal.num 99)]).lookup
        "liveEventStartTime" = Option.none ∧
    ((live_event (.response 200 (.json (.dict (PyDict.ofList
          [("liveEventSno", PyVal.num 7), ("liveEventEndTime", PyVal.num 99)])))) initState).reg.liveEventSno
        = some 7 ∧
      (live_event (.response 200 (.json (.dict (PyDict.ofList
          [("liveEventSno", PyVal.num 7), ("liveEventEndTime", PyVal.num 99)])))) initState).reg.liveEventEndTime
        = some 99 ∧
      (live_event (.response 200 (.json (.dict (PyDict.ofList
          [("liveEventSno", PyVal.num 7), ("liveEventEndTime", PyVal.num 99)])))) initState).reg.liveEventStartTime
        = initState.reg.liveEventStartTime ∧
      (live_event (.response 200 (.json (.dict (PyDict.ofList
          [("liveEventSno", PyVal.num 7), ("liveEventEndTime", PyVal.num 99)])))) initState).log
        = initState.log ++ [.warnMissingField "liveEventStartTime" (PyVal.dict (PyDict.ofList
            [("liveEventSno", PyVal.num 7), ("liveEventEndTime", PyVal.num 99)]))]) :=
  ⟨by decide,
    c7_missing_start_time 200
      (PyDict.ofList [("liveEventSno", PyVal.num 7), ("liveEventEndTime", PyVal.num 99)])
      initState (PyVal.num 7) (PyVal.num 99) 7 99
      (by decide) (by decide) (by decide) (by decide) (by decide)⟩

/-- The upstream behaviour exhibiting the C1 bug: the status endpoint is
unreachable (transport raises after its retries), while the world-state and
live-event endpoints and the push gateway are all healthy. -/
def c1Input : Upstream :=
  { status := .raised,
    worldState := .response 200 (.json (.list (.ofList
      [PyVal.dict (.ofList [("worldState", PyVal.str "A"), ("nValue", PyVal.num 1)])]))),
    liveEvent := .response 200 (.json (.dict (.ofList
      [("liveEventSno", PyVal.num 7), ("liveEventStartTime", PyVal.num 1),
       ("liveEventEndTime", PyVal.num 2)]))),
    pushOk := true }

/-- C1 (code bug): when the status fetch fails, `get_endpoint` returns
`None`, the dead `except` branch does not fire, and `None.get` raises an
uncaught `AttributeError` outside the `try`: the run aborts with nothing
logged, the world-state and live-event collectors never execute (the request
counter shows exactly the one status call, and the world-state gauge stays
empty although the sibling collector would have succeeded on the same
upstream data), and the push is skipped — contradicting the claimed failure
isolation. -/
theorem c1_status_fetch_failure_aborts_run :
    (runCollectors c1Input initState).2 = some PyErr.attributeError ∧
    (main c1Input).pushAttempted = false ∧
    (main c1Input).exitZero = false ∧
    (main c1Input).final.log = [] ∧
    (main c1Input).final.reg.worldState = [] ∧
    (main c1Input).final.reg.liveEventSno = Option.none ∧
    (main c1Input).final.reg.reqCounter =
      [({ status := -1, method := "GET", scheme := "https", host := "d4armory.io",
          port := Option.none, path := "/status" }, 1)] ∧
    (world_state c1Input.worldState initState).reg.worldState = [(PyVal.str "A", 1)] := by
  decide

/-- The upstream behaviour exhibiting the C2 bug: status fetch fails, the
other two endpoints return benign payloads, and the push gateway is up. -/
def c2Input : Upstream :=
  { status := .raised,
    worldState := .response 200 (.json PyVal.none),
    liveEvent := .response 200 (.json (.dict (.ofList [("liveEventSno", PyVal.num 3)]))),
    pushOk := true }

/-- C2 (code bug): with a healthy gateway but a failing status fetch, the
uncaught `AttributeError` in the health-check collector terminates the run
before `push_to_gateway` is ever called, and the process exits non-zero even
though the push never failed — contradicting the claims that the push is
always attempted after all collectors and that the exit is non-zero iff the
push fails. -/
theorem c2_push_skipped_without_push_failure :
    c2Input.pushOk = true ∧
    (main c2Input).pushAttempted = false ∧
    (main c2Input).exitZero = false := by
  decide

/-- C4 counterexample: in the payload
`[{worldState: "A", nValue: null}, {worldState: "B", nValue: 2}]` the first
entry carries a non-numeric value; the claim demands a per-entry warning and
continued collection, but `Gauge.set` raises, the collector-level `except`
logs an error and stops: no warning is emitted and the well-formed second
entry never sets its gauge. -/
theorem c4_nonnumeric_value_aborts_collector :
    (world_state (.response 200 (.json (.list (.ofList
        [PyVal.dict (.ofList [("worldState", PyVal.str "A"), ("nValue", PyVal.none)]),
         PyVal.dict (.ofList [("worldState", PyVal.str "B"), ("nValue", PyVal.num 2)])]))))
      initState).reg.worldState = [] ∧
    (world_state (.response 200 (.json (.list (.ofList
        [PyVal.dict (.ofList [("worldState", PyVal.str "A"), ("nValue", PyVal.none)]),
         PyVal.dict (.ofList [("worldState", PyVal.str "B"), ("nValue", PyVal.num 2)])]))))
      initState).log = [LogEvent.excFailedWorldState] := by
  decide

/-- The gauge write a world-state entry performs: when the membership guard
passes and both subscripts and the float coercion succeed, the written
(label, value) pair; `none` otherwise.  Statement-side characterization for
the amended C4, mirroring the loop body step by step. -/
def ws_entry_write (e : PyVal) : Option (PyVal × Rat) :=
  match ws_check e with
  | .ok true =>
    match pySubscript e "worldState" with
    | .ok kv =>
      match pySubscript e "nValue" with
      | .ok nv =>
        match pyFloat nv with
        | .ok q => some (kv, q)
        | .error _ => Option.none
      | .error _ => Option.none
    | .error _ => Option.none
  | _ => Option.none

/-- The warning a world-state entry triggers: exactly when the membership
guard evaluates to false without raising (a dict missing one of the keys, or
a list/string entry not containing both key strings).  Statement-side
characterization for the amended C4. -/
def ws_entry_warn (e : PyVal) : Option LogEvent :=
  match ws_check e with
  | .ok false => some (.warnInvalidWorldState e)
  | _ => Option.none

/-- An entry is tame exactly when the loop body processes it without
raising: the membership guard does not raise (so dicts of any content, and
lists/strings as well — for those the guard is just false unless both key
strings occur), and, when the guard passes, both subscripts and the float
coercion of the value succeed.  Scalar entries (`None`, booleans, numbers)
are not tame since `in` raises `TypeError` on them; neither is a both-keys
dict entry with a non-float-coercible value. -/
def ws_entry_tame (e : PyVal) : Bool :=
  match ws_check e with
  | .error _ => false
  | .ok false => true
  | .ok true =>
    match pySubscript e "worldState" with
    | .error _ => false
    | .ok _ =>
      match pySubscript e "nValue" with
      | .error _ => false
      | .ok nv =>
        match pyFloat nv with
        | .ok _ => true
        | .error _ => false

theorem ws_loop_tame (entries : List PyVal) (st : RunState)
    (htame : entries.all ws_entry_tame = true) :
    ws_loop entries st =
      ({ reg := { st.reg with worldState := wsApply (entries.filterMap ws_entry_write) st.reg.worldState },
         log := st.log ++ entries.filterMap ws_entry_warn }, Option.none) := by
  induction entries generalizing st with
  | nil => simp [ws_loop, wsApply]
  | cons e rest ih =>
    rw [List.all_cons, Bool.and_eq_true] at htame
    obtain ⟨hthead, htrest⟩ := htame
    cases hc : ws_check e with
    | error err => simp [ws_entry_tame, hc] at hthead
    | ok b =>
      cases b with
      | false =>
        rw [show ws_loop (e :: rest) st
            = ws_loop rest (addLog st (.warnInvalidWorldState e)) by simp [ws_loop, hc]]
        rw [ih _ htrest]
        simp [addLog, ws_entry_write, ws_entry_warn, hc]
      | true =>
        cases hs1 : pySubscript e "worldState" with
        | error err => simp [ws_entry_tame, hc, hs1] at hthead
        | ok kv =>
          cases hs2 : pySubscript e "nValue" with
          | error err => simp [ws_entry_tame, hc, hs1, hs2] at hthead
          | ok nv =>
            cases hq : pyFloat nv with
            | error err => simp [ws_entry_tame, hc, hs1, hs2, hq] at hthead
            | ok q =>
              rw [show ws_loop (e :: rest) st
                  = ws_loop rest { st with reg := { st.reg with worldState := setG st.reg.worldState kv q } } by
                simp [ws_loop, ws_set, hc, hs1, hs2, hq]]
              rw [ih _ htrest]
              simp [ws_entry_write, ws_entry_warn, hc, hs1, hs2, hq, wsApply]

/-- C4 amended: every malformed entry that the loop body processes without
raising is recovered locally — an entry on which the membership guard is
false for one of the keys (a dict missing the identifier or the value key,
and likewise a list or string entry not containing both key strings)
produces one warning with the offending entry and collection continues,
while every well-formed entry still sets its gauge.  An entry on which the
body raises — as the counterexample shows for one carrying both keys with a
value that cannot be coerced to float — instead aborts the collector: the
collector-level handler logs an error and the remaining entries are
skipped. -/
theorem c4_world_state_amended (code : Int) (entries : List PyVal) (st : RunState)
    (htame : entries.all ws_entry_tame = true) :
    (world_state (.response code (.json (.list (PyList.ofList entries)))) st).reg.worldState
      = wsApply (entries.filterMap ws_entry_write) st.reg.worldState ∧
    (world_state (.response code (.json (.list (PyList.ofList entries)))) st).log
      = st.log ++ entries.filterMap ws_entry_warn := by
  cases entries with
  | nil =>
    constructor <;>
      simp [world_state, get_endpoint, ws_iterable, pyTruthy, PyList.ofList, ws_loop,
        wsApply, recordEvents, applyEvent, bump]
  | cons e rest =>
    have hiter : ws_iterable (PyVal.list (PyList.ofList (e :: rest))) = .ok (e :: rest) := by
      simp [ws_iterable, pyTruthy, pyIter, PyList.ofList, PyList.toList, PyList.toList_ofList]
    constructor <;>
      · simp only [world_state, get_endpoint, hiter]
        rw [ws_loop_tame (e :: rest) _ htame]
        simp [recordEvents, applyEvent, bump, foldl_applyEvent_worldState]

/-- Witness for the amended C4 at the spec's example payload extended with a
list entry and a string entry, `[{worldState: "A", nValue: 1},
{bogus: true}, [], "xyz"]`: the gauge for "A" is set to 1, one warning is
logged for each of the three malformed entries — the key-less dict and the
two non-dict shapes alike — and the collector does not raise. -/
theorem c4_world_state_amended_witness :
    ([PyVal.dict (.ofList [("worldState", PyVal.str "A"), ("nValue", PyVal.num 1)]),
      PyVal.dict (.ofList [("bogus", PyVal.bool true)]),
      PyVal.list .nil, PyVal.str "xyz"].all ws_entry_tame = true) ∧
    (world_state (.response 200 (.json (.list (.ofList
        [PyVal.dict (.ofList [("worldState", PyVal.str "A"), ("nValue", PyVal.num 1)]),
         PyVal.dict (.ofList [("bogus", PyVal.bool true)]),
         PyVal.list .nil, PyVal.str "xyz"])))) initState).reg.worldState
      = [(PyVal.str "A", 1)] ∧
    (world_state (.response 200 (.json (.list (.ofList
        [PyVal.dict (.ofList [("worldState", PyVal.str "A"), ("nValue", PyVal.num 1)]),
         PyVal.dict (.ofList [("bogus", PyVal.bool true)]),
         PyVal.list .nil, PyVal.str "xyz"])))) initState).log
      = [.warnInvalidWorldState (PyVal.dict (.ofList [("bogus", PyVal.bool true)])),
         .warnInvalidWorldState (PyVal.list .nil),
         .warnInvalidWorldState (PyVal.str "xyz")] := by
  refine ⟨by decide, ?_, ?_⟩
  · rw [(c4_world_state_amended 200
      [PyVal.dict (.ofList [("worldState", PyVal.str "A"), ("nValue", PyVal.num 1)]),
       PyVal.dict (.ofList [("bogus", PyVal.bool true)]),
       PyVal.list .nil, PyVal.str "xyz"] initState (by decide)).1]
    decide
  · rw [(c4_world_state_amended 200
      [PyVal.dict (.ofList [("worldState", PyVal.str "A"), ("nValue", PyVal.num 1)]),
       PyVal.dict (.ofList [("bogus", PyVal.bool true)]),
       PyVal.list .nil, PyVal.str "xyz"] initState (by decide)).2]
    decide

section CollectorEffects

/-- The payload value `d4armory_health_check` works with, as a function of
the upstream outcome. -/
def hc_data (h : HttpOutcome) : PyVal :=
  health_check_data (get_endpoint STATUS_ENDPOINT h).1

/-- The 0/1 gauge value the health check computes for one service. -/
def hcValue (kvs : PyDict) (svc : String) : Rat :=
  if (kvs.lookup svc).getD (PyVal.bool false) = PyVal.bool true then 1 else 0

/-- Effect of the health check on the service-status gauge family. -/
def hcApply (h : HttpOutcome) (m : List (String × Rat)) : List (String × Rat) :=
  match hc_data h with
  | .dict kvs =>
    setG (setG m "character_service" (hcValue kvs "character_service"))
      "event_service" (hcValue kvs "event_service")
  | _ => m

/-- The exception (if any) escaping the health check, as a function of the
upstream outcome. -/
def hcErr (h : HttpOutcome) : Option PyErr :=
  match hc_data h with
  | .dict _ => Option.none
  | _ => some .attributeError

theorem hc_loop_char (data : PyVal) (st : RunState) :
    hc_loop data ["character_service", "event_service"] st =
      match data with
      | .dict kvs =>
        ({ st with reg := { st.reg with d4armoryStatus := setG (setG st.reg.d4armoryStatus "character_service" (hcValue kvs "character_service")) "event_service" (hcValue kvs "event_service") } },
          Option.none)
      | _ => (st, some PyErr.attributeError) := by
  cases data <;> simp [hc_loop, pyDictGet, hcValue]

theorem hc_unfold (h : HttpOutcome) (st : RunState) :
    d4armory_health_check h st
      = hc_loop (hc_data h) ["character_service", "event_service"]
          (recordEvents st (get_endpoint STATUS_ENDPOINT h).2) := rfl

theorem hc_status_effect (h : HttpOutcome) (st : RunState) :
    (d4armory_health_check h st).1.reg.d4armoryStatus = hcApply h st.reg.d4armoryStatus := by
  rw [hc_unfold, hc_loop_char]
  unfold hcApply
  cases hc_data h <;> simp [recordEvents, foldl_applyEvent_d4armoryStatus]

theorem hc_frame (h : HttpOutcome) (st : RunState) :
    (d4armory_health_check h st).1.reg.worldState = st.reg.worldState ∧
    (d4armory_health_check h st).1.reg.liveEventSno = st.reg.liveEventSno ∧
    (d4armory_health_check h st).1.reg.liveEventStartTime = st.reg.liveEventStartTime ∧
    (d4armory_health_check h st).1.reg.liveEventEndTime = st.reg.liveEventEndTime := by
  rw [hc_unfold, hc_loop_char]
  cases hc_data h <;>
    simp [recordEvents, foldl_applyEvent_worldState, foldl_applyEvent_liveEventSno,
      foldl_applyEvent_liveEventStartTime, foldl_applyEvent_liveEventEndTime]

theorem hc_err_effect (h : HttpOutcome) (st : RunState) :
    (d4armory_health_check h st).2 = hcErr h := by
  rw [hc_unfold, hc_loop_char]
  unfold hcErr
  cases hc_data h <;> rfl

/-- The sequence of gauge writes the world-state loop performs before
terminating or raising, as a function of the entry list alone. -/
def ws_writes : List PyVal → List (PyVal × Rat)
  | [] => []
  | info :: rest =>
    match ws_check info with
    | .error _ => []
    | .ok false => ws_writes rest
    | .ok true =>
      match pySubscript info "worldState" with
      | .error _ => []
      | .ok kv =>
        match pySubscript info "nValue" with
        | .error _ => []
        | .ok nv =>
          match pyFloat nv with
          | .error _ => []
          | .ok q => (kv, q) :: ws_writes rest

theorem ws_loop_worldState (infos : List PyVal) (st : RunState) :
    (ws_loop infos st).1.reg.worldState = wsApply (ws_writes infos) st.reg.worldState := by
  induction infos generalizing st with
  | nil => rfl
  | cons info rest ih =>
    cases hc : ws_check info with
    | error e => simp [ws_loop, ws_writes, hc, wsApply]
    | ok b =>
      cases b with
      | false =>
        rw [show ws_loop (info :: rest) st
            = ws_loop rest (addLog st (.warnInvalidWorldState info)) by simp [ws_loop, hc]]
        simp [ws_writes, hc, ih, addLog]
      | true =>
        cases hs1 : pySubscript info "worldState" with
        | error e => simp [ws_loop, ws_set, ws_writes, hc, hs1, wsApply]
        | ok kv =>
          cases hs2 : pySubscript info "nValue" with
          | error e => simp [ws_loop, ws_set, ws_writes, hc, hs1, hs2, wsApply]
          | ok nv =>
            cases hq : pyFloat nv with
            | error e => simp [ws_loop, ws_set, ws_writes, hc, hs1, hs2, hq, wsApply]
            | ok q =>
              rw [show ws_loop (info :: rest) st
                  = ws_loop rest { st with reg := { st.reg with worldState := setG st.reg.worldState kv q } } by
                simp [ws_loop, ws_set, hc, hs1, hs2, hq]]
              simp [ws_writes, hc, hs1, hs2, hq, ih, wsApply]

theorem ws_loop_frame (infos : List PyVal) (st : RunState) :
    (ws_loop infos st).1.reg.d4armoryStatus = st.reg.d4armoryStatus ∧
    (ws_loop infos st).1.reg.liveEventSno = st.reg.liveEventSno ∧
    (ws_loop infos st).1.reg.liveEventStartTime = st.reg.liveEventStartTime ∧
    (ws_loop infos st).1.reg.liveEventEndTime = st.reg.liveEventEndTime := by
  induction infos generalizing st with
  | nil => exact ⟨rfl, rfl, rfl, rfl⟩
  | cons info rest ih =>
    cases hc : ws_check info with
    | error e => simp [ws_loop, hc]
    | ok b =>
      cases b with
      | false =>
        rw [show ws_loop (info :: rest) st
            = ws_loop rest (addLog st (.warnInvalidWorldState info)) by simp [ws_loop, hc]]
        simpa [addLog] using ih (addLog st (.warnInvalidWorldState info))
      | true =>
        cases hs1 : pySubscript info "worldState" with
        | error e => simp [ws_loop, ws_set, hc, hs1]
        | ok kv =>
          cases hs2 : pySubscript info "nValue" with
          | error e => simp [ws_loop, ws_set, hc, hs1, hs2]
          | ok nv =>
            cases hq : pyFloat nv with
            | error e => simp [ws_loop, ws_set, hc, hs1, hs2, hq]
            | ok q =>
              rw [show ws_loop (info :: rest) st
                  = ws_loop rest { st with reg := { st.reg with worldState := setG st.reg.worldState kv q } } by
                simp [ws_loop, ws_set, hc, hs1, hs2, hq]]
              exact ih _

/-- Effect of the world-state collector on the world-state gauge family, as
a function of the upstream outcome. -/
def wsEffect (h : HttpOutcome) (m : List (PyVal × Rat)) : List (PyVal × Rat) :=
  match (get_endpoint WORLD_STATE_ENDPOINT h).1 with
  | .error _ => m
  | .ok data =>
    match ws_iterable data with
    | .error _ => m
    | .ok infos => wsApply (ws_writes infos) m

theorem world_state_unfold (h : HttpOutcome) (st : RunState) :
    world_state h st =
      (match (get_endpoint WORLD_STATE_ENDPOINT h).1 with
       | .error _ => addLog (recordEvents st (get_endpoint WORLD_STATE_ENDPOINT h).2) .excFailedWorldState
       | .ok data =>
         match ws_iterable data with
         | .error _ => addLog (recordEvents st (get_endpoint WORLD_STATE_ENDPOINT h).2) .excFailedWorldState
         | .ok infos =>
           match (ws_loop infos (recordEvents st (get_endpoint WORLD_STATE_ENDPOINT h).2)).2 with
           | some _ => addLog (ws_loop infos (recordEvents st (get_endpoint WORLD_STATE_ENDPOINT h).2)).1 .excFailedWorldState
           | Option.none => (ws_loop infos (recordEvents st (get_endpoint WORLD_STATE_ENDPOINT h).2)).1) := rfl

theorem world_state_worldState (h : HttpOutcome) (st : RunState) :
    (world_state h st).reg.worldState = wsEffect h st.reg.worldState := by
  rw [world_state_unfold]
  unfold wsEffect
  cases hfe : (get_endpoint WORLD_STATE_ENDPOINT h).1 with
  | error e => simp [addLog, recordEvents, foldl_applyEvent_worldState]
  | ok data =>
    cases hit : ws_iterable data with
    | error e => simp [hit, addLog, recordEvents, foldl_applyEvent_worldState]
    | ok infos =>
      have hws := ws_loop_worldState infos (recordEvents st (get_endpoint WORLD_STATE_ENDPOINT h).2)
      simp only [hit]
      cases herr : (ws_loop infos (recordEvents st (get_endpoint WORLD_STATE_ENDPOINT h).2)).2 <;>
        · simp only [addLog, hws]
          simp [recordEvents, foldl_applyEvent_worldState]

theorem world_state_frame (h : HttpOutcome) (st : RunState) :
    (world_state h st).reg.d4armoryStatus = st.reg.d4armoryStatus ∧
    (world_state h st).reg.liveEventSno = st.reg.liveEventSno ∧
    (world_state h st).reg.liveEventStartTime = st.reg.liveEventStartTime ∧
    (world_state h st).reg.liveEventEndTime = st.reg.liveEventEndTime := by
  rw [world_state_unfold]
  cases hfe : (get_endpoint WORLD_STATE_ENDPOINT h).1 with
  | error e =>
    simp [addLog, recordEvents, foldl_applyEvent_d4armoryStatus, foldl_applyEvent_liveEventSno,
      foldl_applyEvent_liveEventStartTime, foldl_applyEvent_liveEventEndTime]
  | ok data =>
    cases hit : ws_iterable data with
    | error e =>
      simp [hit, addLog, recordEvents, foldl_applyEvent_d4armoryStatus, foldl_applyEvent_liveEventSno,
        foldl_applyEvent_liveEventStartTime, foldl_applyEvent_liveEventEndTime]
    | ok infos =>
      have hfr := ws_loop_frame infos (recordEvents st (get_endpoint WORLD_STATE_ENDPOINT h).2)
      simp only [hit]
      cases herr : (ws_loop infos (recordEvents st (get_endpoint WORLD_STATE_ENDPOINT h).2)).2 <;>
        · simp only [addLog, hfr.1, hfr.2.1, hfr.2.2.1, hfr.2.2.2]
          simp [recordEvents, foldl_applyEvent_d4armoryStatus, foldl_applyEvent_liveEventSno,
            foldl_applyEvent_liveEventStartTime, foldl_applyEvent_liveEventEndTime]

/-- Outcome of one `if key in data: gauge.set(data[key])` block as a value:
the written gauge value, `none` for the warning path, or the exception. -/
def le_write (data : PyVal) (key : String) : Except PyErr (Option Rat) :=
  match pyContains data key with
  | .error e => .error e
  | .ok false => .ok Option.none
  | .ok true =>
    match pySubscript data key with
    | .error e => .error e
    | .ok v =>
      match pyFloat v with
      | .error e => .error e
      | .ok q => .ok (some q)

theorem le_field_char (data : PyVal) (key : String) (setg : RunState → Rat → RunState)
    (st : RunState) :
    le_field data key setg st =
      match le_write data key with
      | .error e => (st, some e)
      | .ok Option.none => (addLog st (.warnMissingField key data), Option.none)
      | .ok (some q) => (setg st q, Option.none) := by
  cases h1 : pyContains data key with
  | error e => simp [le_field, le_write, h1]
  | ok b =>
    cases b with
    | false => simp [le_field, le_write, h1]
    | true =>
      cases h2 : pySubscript data key with
      | error e => simp [le_field, le_write, h1, h2]
      | ok v =>
        cases h3 : pyFloat v with
        | error e => simp [le_field, le_write, h1, h2, h3]
        | ok q => simp [le_field, le_write, h1, h2, h3]

/-- The value the live-event collector writes to the sno gauge, as a
function of the upstream outcome; `none` when no write occurs. -/
def leSnoEff (h : HttpOutcome) : Option Rat :=
  match (get_endpoint LIVE_EVENT_ENDPOINT h).1 with
  | .error _ => Option.none
  | .ok data =>
    match le_write data "liveEventSno" with
    | .ok (some q) => some q
    | _ => Option.none

/-- The value written to the start-time gauge (reached only when the sno
block did not raise). -/
def leStartEff (h : HttpOutcome) : Option Rat :=
  match (get_endpoint LIVE_EVENT_ENDPOINT h).1 with
  | .error _ => Option.none
  | .ok data =>
    match le_write data "liveEventSno" with
    | .error _ => Option.none
    | .ok _ =>
      match le_write data "liveEventStartTime" with
      | .ok (some q) => some q
      | _ => Option.none

/-- The value written to the end-time gauge (reached only when the sno and
start-time blocks did not raise). -/
def leEndEff (h : HttpOutcome) : Option Rat :=
  match (get_endpoint LIVE_EVENT_ENDPOINT h).1 with
  | .error _ => Option.none
  | .ok data =>
    match le_write data "liveEventSno" with
    | .error _ => Option.none
    | .ok _ =>
      match le_write data "liveEventStartTime" with
      | .error _ => Option.none
      | .ok _ =>
        match le_write data "liveEventEndTime" with
        | .ok (some q) => some q
        | _ => Option.none

/-- Overwrite an optional gauge: the write wins when present, otherwise the
old value stays. -/
def writeOr (w old : Option Rat) : Option Rat :=
  match w with
  | some q => some q
  | Option.none => old

theorem writeOr_idem (w x : Option Rat) : writeOr w (writeOr w x) = writeOr w x := by
  cases w <;> rfl

theorem live_event_char (h : HttpOutcome) (st : RunState) :
    (live_event h st).reg.liveEventSno = writeOr (leSnoEff h) st.reg.liveEventSno ∧
    (live_event h st).reg.liveEventStartTime = writeOr (leStartEff h) st.reg.liveEventStartTime ∧
    (live_event h st).reg.liveEventEndTime = writeOr (leEndEff h) st.reg.liveEventEndTime ∧
    (live_event h st).reg.d4armoryStatus = st.reg.d4armoryStatus ∧
    (live_event h st).reg.worldState = st.reg.worldState := by
  unfold live_event leSnoEff leStartEff leEndEff
  cases hfe : (get_endpoint LIVE_EVENT_ENDPOINT h).1 with
  | error e =>
    simp [hfe, writeOr, addLog, recordEvents, foldl_applyEvent_liveEventSno,
      foldl_applyEvent_liveEventStartTime, foldl_applyEvent_liveEventEndTime,
      foldl_applyEvent_d4armoryStatus, foldl_applyEvent_worldState]
  | ok data =>
    simp only [hfe, le_field_char]
    cases hw1 : le_write data "liveEventSno" with
    | error e =>
      simp [hw1, writeOr, addLog, recordEvents, foldl_applyEvent_liveEventSno,
        foldl_applyEvent_liveEventStartTime, foldl_applyEvent_liveEventEndTime,
        foldl_applyEvent_d4armoryStatus, foldl_applyEvent_worldState]
    | ok o1 =>
      cases hw2 : le_write data "liveEventStartTime" with
      | error e =>
        cases o1 <;>
          simp [hw1, hw2, writeOr, addLog, setSnoGauge, recordEvents,
            foldl_applyEvent_liveEventSno, foldl_applyEvent_liveEventStartTime,
            foldl_applyEvent_liveEventEndTime, foldl_applyEvent_d4armoryStatus,
            foldl_applyEvent_worldState]
      | ok o2 =>
        cases hw3 : le_write data "liveEventEndTime" with
        | error e =>
          cases o1 <;> cases o2 <;>
            simp [hw1, hw2, hw3, writeOr, addLog, setSnoGauge, setStartGauge, recordEvents,
              foldl_applyEvent_liveEventSno, foldl_applyEvent_liveEventStartTime,
              foldl_applyEvent_liveEventEndTime, foldl_applyEvent_d4armoryStatus,
              foldl_applyEvent_worldState]
        | ok o3 =>
          cases o1 <;> cases o2 <;> cases o3 <;>
            simp [hw1, hw2, hw3, writeOr, addLog, setSnoGauge, setStartGauge, setEndGauge,
              recordEvents, foldl_applyEvent_liveEventSno, foldl_applyEvent_liveEventStartTime,
              foldl_applyEvent_liveEventEndTime, foldl_applyEvent_d4armoryStatus,
              foldl_applyEvent_worldState]

theorem hcApply_idem (h : HttpOutcome) (m : List (String × Rat)) :
    hcApply h (hcApply h m) = hcApply h m := by
  unfold hcApply
  cases hc_data h <;> dsimp only <;> try rfl
  case dict kvs =>
    have h1 : lookupG (setG (setG m "character_service" (hcValue kvs "character_service")) "event_service" (hcValue kvs "event_service")) "character_service" = some (hcValue kvs "character_service") := by
      rw [lookupG_setG_ne _ _ _ _ (by decide), lookupG_setG_self]
    rw [setG_self _ _ _ h1, setG_self _ _ _ (lookupG_setG_self _ _ _)]

theorem wsEffect_idem (h : HttpOutcome) (m : List (PyVal × Rat)) :
    wsEffect h (wsEffect h m) = wsEffect h m := by
  unfold wsEffect
  cases (get_endpoint WORLD_STATE_ENDPOINT h).1 with
  | error e => rfl
  | ok data =>
    dsimp only
    cases ws_iterable data with
    | error e => rfl
    | ok infos =>
      dsimp only
      exact wsApply_idem _ _

theorem runCollectors_char (u : Upstream) (st : RunState) :
    (runCollectors u st).1.reg.d4armoryStatus = hcApply u.status st.reg.d4armoryStatus ∧
    (runCollectors u st).1.reg.worldState =
      (match hcErr u.status with
       | some _ => st.reg.worldState
       | Option.none => wsEffect u.worldState st.reg.worldState) ∧
    (runCollectors u st).1.reg.liveEventSno =
      (match hcErr u.status with
       | some _ => st.reg.liveEventSno
       | Option.none => writeOr (leSnoEff u.liveEvent) st.reg.liveEventSno) ∧
    (runCollectors u st).1.reg.liveEventStartTime =
      (match hcErr u.status with
       | some _ => st.reg.liveEventStartTime
       | Option.none => writeOr (leStartEff u.liveEvent) st.reg.liveEventStartTime) ∧
    (runCollectors u st).1.reg.liveEventEndTime =
      (match hcErr u.status with
       | some _ => st.reg.liveEventEndTime
       | Option.none => writeOr (leEndEff u.liveEvent) st.reg.liveEventEndTime) := by
  have herr := hc_err_effect u.status st
  have hsts := hc_status_effect u.status st
  have hfr := hc_frame u.status st
  unfold runCollectors
  rcases hhc : d4armory_health_check u.status st with ⟨st1, err⟩
  rw [hhc] at herr hsts hfr
  simp only at herr hsts hfr
  cases err with
  | some e =>
    rw [← herr]
    exact ⟨hsts, hfr.1, hfr.2.1, hfr.2.2.1, hfr.2.2.2⟩
  | none =>
    rw [← herr]
    have hws := world_state_worldState u.worldState st1
    have hwf := world_state_frame u.worldState st1
    have hle := live_event_char u.liveEvent (world_state u.worldState st1)
    refine ⟨?_, ?_, ?_, ?_, ?_⟩
    · rw [hle.2.2.2.1, hwf.1, hsts]
    · rw [hle.2.2.2.2, hws, hfr.1]
    · rw [hle.1, hwf.2.1, hfr.2.1]
    · rw [hle.2.1, hwf.2.2.1, hfr.2.2.1]
    · rw [hle.2.2.1, hwf.2.2.2, hfr.2.2.2]

/-- C9: running the collector pipeline a second time over the registry
produced by a first run with the same upstream responses leaves every gauge
value unchanged — gauge writes overwrite rather than accumulate, so two runs
with identical upstream responses (each starting from `main`'s fresh
registry) yield identical final gauge values. -/
theorem c9_collectors_gauge_idempotent (u : Upstream) (st : RunState) :
    gaugesOf (runCollectors u (runCollectors u st).1).1 = gaugesOf (runCollectors u st).1 := by
  obtain ⟨ha1, hw1, hs1, hstt1, he1⟩ := runCollectors_char u st
  obtain ⟨ha2, hw2, hs2, hstt2, he2⟩ := runCollectors_char u (runCollectors u st).1
  unfold gaugesOf
  rw [ha2, hw2, hs2, hstt2, he2, ha1, hw1, hs1, hstt1, he1, hcApply_idem]
  cases hce : hcErr u.status <;>
    simp [wsEffect_idem, writeOr_idem]

end CollectorEffects

end D4Prom
